import Mathlib

/-!
Verification development for the stablecoin conversion-analysis pipeline.

The TypeScript source is shallowly embedded as follows:

* JavaScript numbers are modelled as exact rationals (`ℚ`); timestamps
  (ISO-8601 strings parsed through the JavaScript `Date` API) are modelled
  as their epoch value in milliseconds (`ℤ`).
* The `Date` calendar API (`getDate`, `setDate`, `setMonth`, comparisons) is
  modelled with the standard proleptic-Gregorian civil-calendar conversions
  (Hinnant's civil-from-days / days-from-civil algorithms), in UTC.
  `Int./` is Euclidean division, which agrees with `Math.floor` division for
  the positive constant divisors used here.
* `Math.sin` is modelled as an uninterpreted function parameter
  `sinq : ℚ → ℚ`; the `Math.random() - 0.5` jitter term of the synthetic
  exchange-rate model is an explicit input (a value `ℚ`, or a stream
  `ℤ → ℚ` indexed by timestamp where a whole analysis is embedded).
* The source compares `stdDev / mean` (where `stdDev = Math.sqrt variance`)
  against constant thresholds.  To keep the embedding executable these
  comparisons are embedded by the equivalent squared comparison on the
  variance, with the IEEE-754 behaviour of the source preserved at
  `mean = 0` (where the source divides `0/0 = NaN` or `x/0 = Infinity`,
  and every `NaN < c` / `Infinity < c` test is false) and at `mean < 0`
  (where the quotient is nonpositive, hence below every positive
  threshold).  The bridge to the specification's real-valued
  `Real.sqrt variance / mean < c` reading is proved, not assumed.
* The recommendation synthesizer's English sentences are modelled as an
  inductive type with one constructor per template, carrying the data
  interpolated into the template; all templates are pairwise distinct
  strings in the source, so this is faithful for deciding which branch
  produced a result.
-/

/-! ## Calendar model (JavaScript `Date`, UTC) -/

/-- Milliseconds in a day. -/
def msPerDay : ℤ := 86400000

/-- Gregorian civil date (year, month 1-12, day 1-31) from a count of days
since 1970-01-01 (Hinnant's civil-from-days algorithm).  Models the UTC
calendar fields a JavaScript `Date` exposes. -/
def civilFromDays (z0 : ℤ) : ℤ × ℤ × ℤ :=
  let z := z0 + 719468
  let era := z / 146097
  let doe := z - era * 146097
  let yoe := (doe - doe / 1460 + doe / 36524 - doe / 146096) / 365
  let y := yoe + era * 400
  let doy := doe - (365 * yoe + yoe / 4 - yoe / 100)
  let mp := (5 * doy + 2) / 153
  let d := doy - (153 * mp + 2) / 5 + 1
  let m := if mp < 10 then mp + 3 else mp - 9
  (if m ≤ 2 then y + 1 else y, m, d)

/-- Days since 1970-01-01 from a Gregorian civil date (Hinnant's
days-from-civil algorithm). -/
def daysFromCivil (y m d : ℤ) : ℤ :=
  let yAdj := if m ≤ 2 then y - 1 else y
  let era := yAdj / 400
  let yoe := yAdj - era * 400
  let mp := if m ≤ 2 then m + 9 else m - 3
  let doy := (153 * mp + 2) / 5 + d - 1
  let doe := yoe * 365 + yoe / 4 - yoe / 100 + doy
  era * 146097 + doe - 719468

/-- A civil datetime: year, month (1-12), day (1-31) and milliseconds past
midnight.  This models the UTC display of a JavaScript `Date` (and hence of
an ISO-8601 timestamp string). -/
structure CivilDT where
  y : ℤ
  m : ℤ
  d : ℤ
  tod : ℤ
deriving DecidableEq, Repr

/-- Civil datetime displayed by an epoch-milliseconds instant (UTC). -/
def toCivil (ms : ℤ) : CivilDT :=
  let c := civilFromDays (ms / msPerDay)
  ⟨c.1, c.2.1, c.2.2, ms % msPerDay⟩

/-- Epoch-milliseconds instant of a civil datetime. -/
def fromCivil (c : CivilDT) : ℤ :=
  daysFromCivil c.y c.m c.d * msPerDay + c.tod

/-- `date.setMonth(date.getMonth() + 1)` for a day-of-month ≤ 28 (where no
month-length overflow can occur): step to the same day and time of the next
calendar month. -/
def nextMonth (c : CivilDT) : CivilDT :=
  if c.m = 12 then ⟨c.y + 1, 1, c.d, c.tod⟩ else ⟨c.y, c.m + 1, c.d, c.tod⟩

/-- `new Date(ms).getDate()`: UTC calendar day-of-month of an instant. -/
def dayOfMonth (ms : ℤ) : ℤ :=
  (civilFromDays (ms / msPerDay)).2.2

/-! ## Data model -/

/-- Frequency classification buckets (src/unnamed/part_007, `FrequencyPattern`). -/
inductive FrequencyPattern where
  | daily
  | weekly
  | biWeekly
  | monthly
  | irregular
  | insufficientData
deriving DecidableEq, Repr

/-- A conversion event (src/unnamed/part_007, `ConversionEvent`).
The ISO timestamp string is modelled by its epoch-milliseconds value. -/
structure ConversionEvent where
  timestamp : ℤ
  amount : ℚ
  token : String
  toAddress : String
  hash : String
deriving DecidableEq, Repr, Inhabited

/-- The `rawContract` metadata object of a raw transfer record
(src/lib/alchemy.ts, `TransferData`). -/
structure RawContract where
  address : Option String
  decimal : Option String
deriving DecidableEq, Repr

/-- A raw transfer record (src/lib/alchemy.ts, `TransferData`).  The optional
ISO timestamp string is modelled as an optional epoch-milliseconds value. -/
structure TransferData where
  blockNum : String
  hash : String
  «from» : String
  «to» : Option String
  value : ℚ
  asset : String
  category : String
  rawContract : RawContract
  timestamp : Option ℤ
deriving DecidableEq, Repr

/-- A simulated conversion (src/lib/disciplineRule.ts, `SimulatedConversion`).
Its ISO timestamp string is modelled by the civil datetime it displays. -/
structure SimulatedConversion where
  timestamp : CivilDT
  amount : ℚ
  priceAtConversion : ℚ
  convertedTo : String
deriving DecidableEq, Repr

/-- Result of the discipline-rule simulation (src/lib/disciplineRule.ts,
`SimulationResult`). -/
structure SimulationResult where
  simulatedConversions : List SimulatedConversion
  conversionPercentage : ℚ
  targetDayOfMonth : ℤ
  totalSimulatedAmount : ℚ
  averageSimulatedAmount : ℚ
deriving DecidableEq, Repr

/-- Tag of a cost result: money saved or lost (src/lib/costCalculator.ts,
the `costType` field). -/
inductive CostType where
  | saved
  | lost
deriving DecidableEq, Repr

/-- Result of the cost calculation (src/lib/costCalculator.ts, `CostResult`). -/
structure CostResult where
  costOrSavedAmount : ℚ
  currency : String
  costType : CostType
  actualCost : ℚ
  simulatedCost : ℚ
  conversionCount : ℕ
deriving DecidableEq, Repr

/-- Component sub-scores of the discipline score (src/lib/disciplineScore.ts,
the `components` field of `ScoreResult`). -/
structure ScoreComponents where
  frequencyScore : ℤ
  consistencyScore : ℤ
  timingScore : ℤ
deriving DecidableEq, Repr

/-- Result of the discipline score calculation (src/lib/disciplineScore.ts,
`ScoreResult`). -/
structure ScoreResult where
  score : ℤ
  explanation : String
  components : ScoreComponents
deriving DecidableEq, Repr

/-! ## Event normalizer and pattern detector (src/unnamed/part_007) -/

/-- JavaScript `String.prototype.toLowerCase` (per-character lowercasing;
the addresses compared here are ASCII). -/
def jsToLower (s : String) : String := String.mk (s.data.map Char.toLower)

/-- JavaScript `String.prototype.toUpperCase` (per-character uppercasing). -/
def jsToUpper (s : String) : String := String.mk (s.data.map Char.toUpper)

/-- JavaScript truthiness of a `string | null` value: `null` and the empty
string are falsy. -/
def jsTruthy (o : Option String) : Bool :=
  match o with
  | none => false
  | some s => s ≠ ""

/-- `parseConversionEvents` (src/unnamed/part_007 lines 24-49): keep transfers
whose sender case-insensitively equals the wallet address and whose `to`
field is truthy, then sort ascending by timestamp (JavaScript
`Array.prototype.sort` is a stable sort, and all stable sorts agree, so it
is modelled by the stable `List.insertionSort`).  `now` models the
`new Date().toISOString()` fallback for a missing timestamp.
`toConversionEvent` is the object literal pushed for a kept transfer. -/
def toConversionEvent (now : ℤ) (transfer : TransferData) : ConversionEvent :=
  { timestamp := transfer.timestamp.getD now
    amount := transfer.value
    token := transfer.asset
    toAddress := transfer.«to».getD ""
    hash := transfer.hash }

/-- See `toConversionEvent` for the kept-event shape; this is the filter and
sort of `parseConversionEvents` itself. -/
def parseConversionEvents (now : ℤ) (transfers : List TransferData)
    (walletAddress : String) : List ConversionEvent :=
  let conversions := transfers.filterMap (fun transfer =>
    if jsToLower transfer.from = jsToLower walletAddress ∧ jsTruthy transfer.«to» then
      some (toConversionEvent now transfer)
    else none)
  conversions.insertionSort (fun a b => a.timestamp ≤ b.timestamp)

/-- Consecutive day-gaps of a conversion list: the loop of
`detectFrequencyPattern` (src/unnamed/part_007 lines 57-63), also shared by
`calculateFrequencyScore`. -/
def dayGaps (conversions : List ConversionEvent) : List ℚ :=
  (conversions.zip conversions.tail).map
    (fun p => ((p.2.timestamp - p.1.timestamp : ℤ) : ℚ) / 86400000)

/-- The test `stdDev / avg < c` of the source, where `stdDev` is
`Math.sqrt variance`, embedded without square roots: false when `avg = 0`
(IEEE: `0/0 = NaN`, `x/0 = Infinity`, both failing `< c`), true when
`avg < 0` (a nonpositive quotient is below the positive threshold `c`), else
the squared comparison. -/
def cvBelow (variance avg c : ℚ) : Bool :=
  if avg = 0 then false
  else if avg < 0 then true
  else decide (variance < (c * avg) ^ 2)

/-- `detectFrequencyPattern` (src/unnamed/part_007 lines 51-89). -/
def detectFrequencyPattern (conversions : List ConversionEvent) :
    FrequencyPattern :=
  if conversions.length < 2 then .insufficientData
  else
    let daysBetween := dayGaps conversions
    if daysBetween.length = 0 then .insufficientData
    else
      let avgDays := daysBetween.sum / (daysBetween.length : ℚ)
      let variance :=
        (daysBetween.map (fun days => (days - avgDays) ^ 2)).sum /
          (daysBetween.length : ℚ)
      if cvBelow variance avgDays (3/10) then
        if avgDays ≤ 2 then .daily
        else if avgDays ≤ 9 then .weekly
        else if avgDays ≤ 16 then .biWeekly
        else if avgDays ≤ 35 then .monthly
        else .irregular
      else .irregular

/-! ## Synthetic exchange-rate model -/

/-- `estimateExchangeRate` (src/lib/costCalculator.ts lines 26-42).
`sinq` models `Math.sin`; `jitter` models the `Math.random() - 0.5` draw;
`1704067200000` is `new Date('2024-01-01').getTime()`. -/
def estimateExchangeRate (sinq : ℚ → ℚ) (jitter : ℚ) (timestamp : ℤ)
    (targetCurrency : String) : ℚ :=
  let daysSinceBase : ℤ := (timestamp - 1704067200000) / 86400000
  let fluctuation := sinq ((daysSinceBase : ℚ) * (1/10)) * (2/1000) +
    jitter * (1/1000)
  let usdRate := 1 + fluctuation
  let eurToUsd := 92/100 + sinq ((daysSinceBase : ℚ) * (5/100)) * (2/100)
  let eurRate := usdRate * eurToUsd
  if jsToUpper targetCurrency = "EUR" then eurRate else usdRate

/-- `getExchangeRateAtTimestamp` (src/lib/disciplineRule.ts lines 231-247,
shown at src/lib/costCalculator.ts lines 231-247 of the concatenated
listing). -/
def getExchangeRateAtTimestamp (sinq : ℚ → ℚ) (jitter : ℚ) (timestamp : ℤ)
    (targetCurrency : String) : ℚ :=
  let daysSinceBase : ℤ := (timestamp - 1704067200000) / 86400000
  let fluctuation := sinq ((daysSinceBase : ℚ) * (1/10)) * (2/1000) +
    jitter * (1/1000)
  let usdRate := 1 + fluctuation
  let eurToUsd := 92/100 + sinq ((daysSinceBase : ℚ) * (5/100)) * (2/100)
  let eurRate := usdRate * eurToUsd
  if jsToUpper targetCurrency = "EUR" then eurRate else usdRate

/-! ## Discipline-rule simulator (src/lib/disciplineRule.ts) -/

/-- `calculateConversionPercentage` (src/lib/disciplineRule.ts lines
253-269): average conversion amount as a fraction of the balance, clamped to
[0.1, 0.9]; 0.5 by default. -/
def calculateConversionPercentage (conversions : List ConversionEvent)
    (currentStablecoinBalance : ℚ) : ℚ :=
  if conversions.length = 0 ∨ currentStablecoinBalance ≤ 0 then 1/2
  else
    let totalConverted := (conversions.map (fun c => c.amount)).sum
    let averageConversion := totalConverted / (conversions.length : ℚ)
    let percentage := averageConversion / currentStablecoinBalance
    max (1/10) (min (9/10) percentage)

/-- `determineTargetDayOfMonth` (src/lib/disciplineRule.ts lines 274-296):
the most frequent day-of-month across the conversions (iterating candidate
days in ascending order, as `Object.entries` does for integer keys, keeping
the first maximum), clamped to [1, 28]. -/
def determineTargetDayOfMonth (conversions : List ConversionEvent) : ℤ :=
  if conversions.length = 0 then 1
  else
    let days := conversions.map (fun c => dayOfMonth c.timestamp)
    let best := ((List.range 31).map (fun i => (i : ℤ) + 1)).foldl
      (fun acc day =>
        let count := days.count day
        if acc.2 < count then (day, count) else acc)
      ((1 : ℤ), 0)
    max 1 (min 28 best.1)

/-- The `while (currentDate <= lastConversion)` loop of
`generateMonthlyConversionDates` (src/lib/disciplineRule.ts lines 317-322),
as fuel-bounded recursion; the caller supplies enough fuel for the loop to
run to completion (each iteration advances at least 28 days). -/
def genDatesGo (fuel : ℕ) (currentDate : CivilDT) (lastMs : ℤ) :
    List CivilDT :=
  match fuel with
  | 0 => []
  | fuel + 1 =>
    if fromCivil currentDate ≤ lastMs then
      currentDate :: genDatesGo fuel (nextMonth currentDate) lastMs
    else []

/-- The starting date of `generateMonthlyConversionDates`
(src/lib/disciplineRule.ts lines 307-315): the first conversion's date with
the day-of-month set to `targetDayOfMonth`, advanced one month when that
instant precedes the first conversion. -/
def simulationStartDate (firstMs targetDayOfMonth : ℤ) : CivilDT :=
  let f := toCivil firstMs
  let c0 : CivilDT := ⟨f.y, f.m, targetDayOfMonth, f.tod⟩
  if fromCivil c0 < firstMs then nextMonth c0 else c0

/-- `generateMonthlyConversionDates` (src/lib/disciplineRule.ts lines
301-325): starting from `simulationStartDate`, one date per month while not
later than the last conversion. -/
def generateMonthlyConversionDates (firstMs lastMs targetDayOfMonth : ℤ) :
    List CivilDT :=
  let c1 := simulationStartDate firstMs targetDayOfMonth
  genDatesGo ((lastMs - fromCivil c1).toNat / (28 * 86400000) + 1) c1 lastMs

/-- `simulateDisciplineRule` (src/lib/disciplineRule.ts lines 335-397).
`sinq` models `Math.sin` and `jit` the per-call `Math.random() - 0.5` draw
of the price model, indexed by the timestamp it is drawn at. -/
def simulateDisciplineRule (sinq : ℚ → ℚ) (jit : ℤ → ℚ)
    (conversions : List ConversionEvent) (currentStablecoinBalance : ℚ)
    (targetCurrency : String) : SimulationResult :=
  if conversions.length < 2 then
    { simulatedConversions := []
      conversionPercentage := 0
      targetDayOfMonth := 1
      totalSimulatedAmount := 0
      averageSimulatedAmount := 0 }
  else
    let sortedConversions :=
      conversions.insertionSort (fun a b => a.timestamp ≤ b.timestamp)
    let firstConversion := sortedConversions.headI.timestamp
    let lastConversion := sortedConversions.getLastI.timestamp
    let conversionPercentage :=
      calculateConversionPercentage sortedConversions currentStablecoinBalance
    let targetDayOfMonth := determineTargetDayOfMonth sortedConversions
    let monthlyDates :=
      generateMonthlyConversionDates firstConversion lastConversion
        targetDayOfMonth
    let simulatedConversions := monthlyDates.map (fun date =>
      { timestamp := date
        amount := currentStablecoinBalance * conversionPercentage
        priceAtConversion :=
          getExchangeRateAtTimestamp sinq (jit (fromCivil date))
            (fromCivil date) targetCurrency
        convertedTo := targetCurrency })
    let totalSimulatedAmount :=
      (simulatedConversions.map (fun s => s.amount)).sum
    { simulatedConversions := simulatedConversions
      conversionPercentage := conversionPercentage
      targetDayOfMonth := targetDayOfMonth
      totalSimulatedAmount := totalSimulatedAmount
      averageSimulatedAmount :=
        if 0 < monthlyDates.length then
          totalSimulatedAmount / (monthlyDates.length : ℚ)
        else 0 }

/-! ## Cost calculator (src/lib/costCalculator.ts) -/

/-- `calculateCostSavings` (src/lib/costCalculator.ts lines 51-144). -/
def calculateCostSavings (sinq : ℚ → ℚ) (jit : ℤ → ℚ)
    (actualConversions : List ConversionEvent)
    (currentStablecoinBalance : ℚ) (targetCurrency : String) : CostResult :=
  if actualConversions.length < 2 then
    { costOrSavedAmount := 0
      currency := targetCurrency
      costType := .saved
      actualCost := 0
      simulatedCost := 0
      conversionCount := actualConversions.length }
  else
    let simulation := simulateDisciplineRule sinq jit actualConversions
      currentStablecoinBalance targetCurrency
    let actualRateSum := (actualConversions.map (fun conversion =>
      estimateExchangeRate sinq (jit conversion.timestamp)
        conversion.timestamp targetCurrency)).sum
    let avgActualRate :=
      if 0 < actualConversions.length then
        actualRateSum / (actualConversions.length : ℚ)
      else 1
    let simulatedRateSum :=
      (simulation.simulatedConversions.map
        (fun simConv => simConv.priceAtConversion)).sum
    let avgSimulatedRate :=
      if 0 < simulation.simulatedConversions.length then
        simulatedRateSum / (simulation.simulatedConversions.length : ℚ)
      else 1
    let totalActualAmount := (actualConversions.map (fun c => c.amount)).sum
    let totalSimulatedAmount := simulation.totalSimulatedAmount
    let actualCostBasis := totalActualAmount * (1 - avgActualRate)
    let simulatedCostBasis := totalSimulatedAmount * (1 - avgSimulatedRate)
    let costOrSavedAmount := simulatedCostBasis - actualCostBasis
    { costOrSavedAmount := |costOrSavedAmount|
      currency := targetCurrency
      costType := if 0 ≤ costOrSavedAmount then .saved else .lost
      actualCost := |actualCostBasis|
      simulatedCost := |simulatedCostBasis|
      conversionCount := actualConversions.length }

/-! ## Discipline scorer (src/lib/disciplineScore.ts) -/

/-- `Math.round`: round half toward positive infinity. -/
def jsRound (q : ℚ) : ℤ := ⌊q + 1/2⌋

/-- `calculateFrequencyScore` (src/lib/disciplineScore.ts lines 467-490):
step function of the deviation of the average inter-conversion gap from 30
days. -/
def calculateFrequencyScore (conversions : List ConversionEvent) : ℤ :=
  if conversions.length < 2 then 0
  else
    let totalDays := (dayGaps conversions).sum
    let avgDays := totalDays / ((conversions.length : ℚ) - 1)
    let deviation := |avgDays - 30|
    if deviation ≤ 2 then 100
    else if deviation ≤ 5 then 85
    else if deviation ≤ 10 then 70
    else if deviation ≤ 15 then 50
    else if deviation ≤ 20 then 30
    else 15

/-- `calculateConsistencyScore` (src/lib/disciplineScore.ts lines 502-524):
step function of the coefficient of variation of the amounts (see `cvBelow`
for the square-root-free embedding of each threshold test). -/
def calculateConsistencyScore (conversions : List ConversionEvent) : ℤ :=
  if conversions.length < 2 then 0
  else
    let amounts := conversions.map (fun c => c.amount)
    let mean := amounts.sum / (amounts.length : ℚ)
    if mean = 0 then 0
    else
      let variance :=
        (amounts.map (fun a => (a - mean) ^ 2)).sum / (amounts.length : ℚ)
      if cvBelow variance mean (1/10) then 100
      else if cvBelow variance mean (1/4) then 75
      else if cvBelow variance mean (2/5) then 50
      else if cvBelow variance mean (3/5) then 25
      else 10

/-- The `Object.entries(dayCounts).reduce` of `calculateTimingScore`
(src/lib/disciplineScore.ts lines 545-553): the day with the highest
occurrence count, iterating candidate days in ascending order (as
`Object.entries` does for integer keys), keeping the first maximum; the
initial accumulator is the first listed day with count 0. -/
def mostCommonDay (daysOfMonth : List ℤ) : ℤ :=
  (((List.range 31).map (fun i => (i : ℤ) + 1)).foldl
    (fun acc day =>
      let count := daysOfMonth.count day
      if acc.2 < count then (day, count) else acc)
    (daysOfMonth.headI, 0)).1

/-- `calculateTimingScore` (src/lib/disciplineScore.ts lines 536-577): step
function of the fraction of conversions within ±3 days (with month-end
wraparound) of the most common day-of-month. -/
def calculateTimingScore (conversions : List ConversionEvent) : ℤ :=
  if conversions.length < 2 then 0
  else
    let daysOfMonth := conversions.map (fun c => dayOfMonth c.timestamp)
    let mc := mostCommonDay daysOfMonth
    let onTarget := (daysOfMonth.filter (fun day =>
      decide (min |day - mc| (31 - |day - mc|) ≤ 3))).length
    let percentageOnTarget := (onTarget : ℚ) / (conversions.length : ℚ)
    if 9/10 ≤ percentageOnTarget then 100
    else if 3/4 ≤ percentageOnTarget then 80
    else if 3/5 ≤ percentageOnTarget then 60
    else if 2/5 ≤ percentageOnTarget then 40
    else if 1/4 ≤ percentageOnTarget then 20
    else 10

/-- `generateExplanation` (src/lib/disciplineScore.ts lines 582-624). -/
def generateExplanation (frequencyScore consistencyScore timingScore : ℤ) :
    String :=
  let p1 :=
    if 80 ≤ frequencyScore then
      "Your conversion frequency is excellent, closely matching a monthly pattern."
    else if 50 ≤ frequencyScore then
      "Your conversion frequency is reasonably consistent but could be more regular."
    else if 25 ≤ frequencyScore then
      "Your conversion frequency is irregular. Consider establishing a monthly habit."
    else
      "Your conversion frequency is very erratic. A consistent monthly schedule would help."
  let p2 :=
    if 80 ≤ consistencyScore then
      "Conversion amounts are very consistent."
    else if 50 ≤ consistencyScore then
      "Conversion amounts vary somewhat but follow a pattern."
    else if 25 ≤ consistencyScore then
      "Conversion amounts are inconsistent. Consider setting a fixed percentage."
    else
      "Conversion amounts vary significantly. A fixed percentage would improve discipline."
  let p3 :=
    if 80 ≤ timingScore then
      "You convert on very consistent dates each month."
    else if 50 ≤ timingScore then
      "Your conversion timing is somewhat predictable."
    else if 25 ≤ timingScore then
      "Conversion timing is unpredictable. Pick a specific day each month."
    else
      "Conversion timing appears random. Choose a fixed date for conversions."
  String.intercalate " " [p1, p2, p3]

/-- `calculateDisciplineScore` (src/lib/disciplineScore.ts lines 634-674):
weighted combination 40% frequency, 30% consistency, 30% timing. -/
def calculateDisciplineScore (conversions : List ConversionEvent) :
    ScoreResult :=
  if conversions.length < 2 then
    { score := 0
      explanation := "Insufficient conversion data to calculate a meaningful score. At least 2 conversions are required."
      components := { frequencyScore := 0, consistencyScore := 0, timingScore := 0 } }
  else
    let frequencyScore := calculateFrequencyScore conversions
    let consistencyScore := calculateConsistencyScore conversions
    let timingScore := calculateTimingScore conversions
    { score := jsRound ((frequencyScore : ℚ) * (2/5) +
        (consistencyScore : ℚ) * (3/10) + (timingScore : ℚ) * (3/10))
      explanation :=
        generateExplanation frequencyScore consistencyScore timingScore
      components := { frequencyScore := frequencyScore
                      consistencyScore := consistencyScore
                      timingScore := timingScore } }

/-! ## Recommendation synthesizer (src/unnamed/part_009) -/

/-- The lowest-scoring component identified by `getPrimaryIssue`
(src/unnamed/part_009 lines 15-31). -/
inductive PrimaryIssue where
  | frequency
  | consistency
  | timing
  | noIssue
deriving DecidableEq, Repr

/-- `getPrimaryIssue` (src/unnamed/part_009 lines 15-31): lowest-scoring
component (ties keep the earlier of frequency, consistency, timing), but
only when it scores below 40. -/
def getPrimaryIssue (components : ScoreComponents) : PrimaryIssue :=
  let lowest :=
    [(PrimaryIssue.consistency, components.consistencyScore),
     (PrimaryIssue.timing, components.timingScore)].foldl
      (fun m current => if current.2 < m.2 then current else m)
      (PrimaryIssue.frequency, components.frequencyScore)
  if lowest.2 < 40 then lowest.1 else .noIssue

/-- The sentence templates returned by `generateRecommendation`
(src/unnamed/part_009 lines 36-119), one constructor per template, carrying
the data interpolated into it.  The templates are pairwise distinct
strings, so distinct constructors correspond to distinct returned
sentences. -/
inductive RecMessage where
  | insufficientData
  | alreadyExcellent
  | lostFrequency (amount : ℚ) (currency : String) (conversionCount : ℕ)
  | lostConsistency (amount : ℚ) (currency : String)
  | lostTiming (amount : ℚ) (currency : String)
  | lostGeneric (amount : ℚ) (currency : String)
  | savedGreat (amount : ℚ) (currency : String)
  | minorAdjustments
  | genericPositive
  | neutral
deriving DecidableEq, Repr

/-- `generateRecommendation` (src/unnamed/part_009 lines 36-119). -/
def generateRecommendation (costResult : CostResult)
    (scoreResult : ScoreResult) : RecMessage :=
  if costResult.conversionCount < 2 then .insufficientData
  else if 80 ≤ scoreResult.score ∧ costResult.costType = .saved ∧
      costResult.costOrSavedAmount < 10 then .alreadyExcellent
  else if costResult.costType = .lost ∧ 5 < costResult.costOrSavedAmount then
    match getPrimaryIssue scoreResult.components with
    | .frequency => .lostFrequency costResult.costOrSavedAmount
        costResult.currency costResult.conversionCount
    | .consistency => .lostConsistency costResult.costOrSavedAmount
        costResult.currency
    | .timing => .lostTiming costResult.costOrSavedAmount costResult.currency
    | .noIssue => .lostGeneric costResult.costOrSavedAmount
        costResult.currency
  else if costResult.costType = .saved ∧ 5 < costResult.costOrSavedAmount then
    .savedGreat costResult.costOrSavedAmount costResult.currency
  else if 0 < costResult.costOrSavedAmount ∧
      costResult.costOrSavedAmount ≤ 5 then .minorAdjustments
  else if 0 < costResult.costOrSavedAmount then .genericPositive
  else .neutral

/-! ## Shared concrete inputs for witnesses and counterexamples -/

/-- A conversion event with fixed token/destination/hash metadata, used for
concrete instances. -/
def sampleEvent (ts : ℤ) (amount : ℚ) : ConversionEvent :=
  ⟨ts, amount, "USDC", "0xdest", "0xhash"⟩

/-- Epoch milliseconds of midnight UTC on a civil date. -/
def msAt (y m d : ℤ) : ℤ := daysFromCivil y m d * 86400000

/-! ## Claim theorems -/

/-- C8: the rate function of the cost calculator and the rate function of the
discipline simulator are extensionally equal: for every `Math.sin`
interpretation, every value of the random jitter draw, every timestamp and
every target currency they return the same number. -/
theorem estimateExchangeRate_eq_getExchangeRateAtTimestamp
    (sinq : ℚ → ℚ) (jitter : ℚ) (timestamp : ℤ) (targetCurrency : String) :
    estimateExchangeRate sinq jitter timestamp targetCurrency =
      getExchangeRateAtTimestamp sinq jitter timestamp targetCurrency := rfl

/-- C4 (counterexample): with fewer than 2 events `simulateDisciplineRule`
returns `targetDayOfMonth = 1`, not `0` as claimed. -/
theorem simulateDisciplineRule_insufficient_targetDay_ne_zero :
    ([] : List ConversionEvent).length < 2 ∧
    (simulateDisciplineRule (fun _ => 0) (fun _ => 0) [] 100 "USD").targetDayOfMonth = 1 ∧
    ¬ (simulateDisciplineRule (fun _ => 0) (fun _ => 0) [] 100 "USD").targetDayOfMonth = 0 := by
  refine ⟨by decide, by decide, by decide⟩

/-- C4 (amended): with fewer than 2 events (and any balance and currency)
`simulateDisciplineRule` returns an empty simulation with
`conversionPercentage`, `totalSimulatedAmount` and `averageSimulatedAmount`
all zero, and `targetDayOfMonth = 1`. -/
theorem simulateDisciplineRule_insufficient_result (sinq : ℚ → ℚ)
    (jit : ℤ → ℚ) (conversions : List ConversionEvent) (balance : ℚ)
    (currency : String) (h : conversions.length < 2) :
    simulateDisciplineRule sinq jit conversions balance currency =
      { simulatedConversions := []
        conversionPercentage := 0
        targetDayOfMonth := 1
        totalSimulatedAmount := 0
        averageSimulatedAmount := 0 } := by
  rw [simulateDisciplineRule, if_pos h]

/-- C4 (witness): the amended statement instantiated at a singleton event
list. -/
theorem simulateDisciplineRule_insufficient_result_witness :
    [sampleEvent 0 5].length < 2 ∧
    simulateDisciplineRule (fun _ => 0) (fun _ => 0) [sampleEvent 0 5] 100 "EUR" =
      { simulatedConversions := []
        conversionPercentage := 0
        targetDayOfMonth := 1
        totalSimulatedAmount := 0
        averageSimulatedAmount := 0 } :=
  ⟨by decide,
   simulateDisciplineRule_insufficient_result (fun _ => 0) (fun _ => 0)
     [sampleEvent 0 5] 100 "EUR" (by decide)⟩

/-- C7: whenever the cost result counts fewer than 2 conversions,
`generateRecommendation` returns the insufficient-data sentence, whatever
every other field of the cost result and the whole score result are. -/
theorem generateRecommendation_insufficient_data (costResult : CostResult)
    (scoreResult : ScoreResult) (h : costResult.conversionCount < 2) :
    generateRecommendation costResult scoreResult = .insufficientData := by
  rw [generateRecommendation, if_pos h]

/-- C7 (witness): instantiated at a cost result with one conversion whose
other fields would otherwise select a different sentence. -/
theorem generateRecommendation_insufficient_data_witness :
    (CostResult.mk 50 "USD" .lost 3 4 1).conversionCount < 2 ∧
    generateRecommendation (CostResult.mk 50 "USD" .lost 3 4 1)
      (ScoreResult.mk 95 "" (ScoreComponents.mk 10 10 10)) = .insufficientData :=
  ⟨by decide,
   generateRecommendation_insufficient_data (CostResult.mk 50 "USD" .lost 3 4 1)
     (ScoreResult.mk 95 "" (ScoreComponents.mk 10 10 10)) (by decide)⟩

/-- C9: the residual generic-positive branch of `generateRecommendation`
(guarded only by `costOrSavedAmount > 0`) is unreachable once at least two
conversions are counted: some earlier branch always matches first. -/
theorem generateRecommendation_genericPositive_unreachable
    (costResult : CostResult) (scoreResult : ScoreResult)
    (h : 2 ≤ costResult.conversionCount) :
    generateRecommendation costResult scoreResult ≠ .genericPositive := by
  rw [generateRecommendation]
  split_ifs with h1 h2 h3 h4 h5 h6
  · omega
  · exact fun hc => RecMessage.noConfusion hc
  · cases hpi : getPrimaryIssue scoreResult.components <;>
      exact fun hc => RecMessage.noConfusion hc
  · exact fun hc => RecMessage.noConfusion hc
  · exact fun hc => RecMessage.noConfusion hc
  · have h7 : 5 < costResult.costOrSavedAmount := by
      by_contra hle
      push_neg at hle
      exact h5 ⟨h6, hle⟩
    cases hct : costResult.costType with
    | saved => exact absurd ⟨hct, h7⟩ h4
    | lost => exact absurd ⟨hct, h7⟩ h3
  · exact fun hc => RecMessage.noConfusion hc

/-- C9 (witness): instantiated at a cost result with two conversions. -/
theorem generateRecommendation_genericPositive_unreachable_witness :
    2 ≤ (CostResult.mk 3 "USD" .saved 1 2 2).conversionCount ∧
    generateRecommendation (CostResult.mk 3 "USD" .saved 1 2 2)
      (ScoreResult.mk 50 "" (ScoreComponents.mk 50 50 50)) ≠ .genericPositive :=
  ⟨by decide,
   generateRecommendation_genericPositive_unreachable
     (CostResult.mk 3 "USD" .saved 1 2 2)
     (ScoreResult.mk 50 "" (ScoreComponents.mk 50 50 50)) (by decide)⟩

/-- Helper: when all events carry the same timestamp, every consecutive
day-gap is zero. -/
theorem dayGaps_eq_zero_of_const (conversions : List ConversionEvent) (t : ℤ)
    (hall : ∀ e ∈ conversions, e.timestamp = t) :
    ∀ g ∈ dayGaps conversions, g = 0 := by
  intro g hg
  simp only [dayGaps, List.mem_map] at hg
  obtain ⟨p, hp, rfl⟩ := hg
  have h1 : p.1 ∈ conversions := (List.of_mem_zip hp).1
  have h2 : p.2 ∈ conversions := List.mem_of_mem_tail (List.of_mem_zip hp).2
  rw [hall _ h1, hall _ h2]
  simp

/-- Helper: the number of consecutive day-gaps is one less than the number
of events. -/
theorem dayGaps_length (conversions : List ConversionEvent) :
    (dayGaps conversions).length = conversions.length - 1 := by
  simp only [dayGaps, List.length_map, List.length_zip, List.length_tail]
  omega

/-- C10: with at least 2 events all carrying the same timestamp (so every
consecutive day-gap is 0 and the mean gap is 0), `detectFrequencyPattern`
still returns a result and it is `irregular`: the `0/0` coefficient of
variation never produces a periodic classification. -/
theorem detectFrequencyPattern_identical_timestamps_irregular
    (conversions : List ConversionEvent) (t : ℤ)
    (hlen : 2 ≤ conversions.length)
    (hall : ∀ e ∈ conversions, e.timestamp = t) :
    detectFrequencyPattern conversions = .irregular := by
  have hsum : (dayGaps conversions).sum = 0 :=
    List.sum_eq_zero (dayGaps_eq_zero_of_const conversions t hall)
  have hglen : (dayGaps conversions).length ≠ 0 := by
    rw [dayGaps_length]; omega
  rw [detectFrequencyPattern, if_neg (by omega), if_neg hglen]
  simp only [hsum, zero_div, cvBelow, if_pos rfl]
  rfl

/-- C10 (witness): two events at the same instant classify as irregular. -/
theorem detectFrequencyPattern_identical_timestamps_irregular_witness :
    2 ≤ [sampleEvent 7 5, sampleEvent 7 9].length ∧
    detectFrequencyPattern [sampleEvent 7 5, sampleEvent 7 9] = .irregular :=
  ⟨by decide,
   detectFrequencyPattern_identical_timestamps_irregular
     [sampleEvent 7 5, sampleEvent 7 9] 7 (by decide) (by decide)⟩

/-- The mean consecutive day-gap: the `avgDays` quantity of
`detectFrequencyPattern` and of the specification. -/
def gapMean (conversions : List ConversionEvent) : ℚ :=
  (dayGaps conversions).sum / ((dayGaps conversions).length : ℚ)

/-- The population variance of the consecutive day-gaps: the square of the
`stdDev` quantity of `detectFrequencyPattern` and of the specification. -/
def gapVariance (conversions : List ConversionEvent) : ℚ :=
  ((dayGaps conversions).map (fun days => (days - gapMean conversions) ^ 2)).sum /
    ((dayGaps conversions).length : ℚ)

/-- The specification's low-dispersion condition `cv < 0.3`, read with the
real square root and real division: `cv = stdDev / avgDays` where `stdDev`
is the population standard deviation of the day-gaps.  (The conjunct
`gapMean ≠ 0` is exactly the reading of this comparison in the source's
IEEE-754 arithmetic, where a zero mean makes `cv` NaN or infinite and the
comparison false.) -/
def cvRegular (conversions : List ConversionEvent) : Prop :=
  gapMean conversions ≠ 0 ∧
    Real.sqrt (gapVariance conversions : ℝ) / (gapMean conversions : ℝ) < 3/10

/-- Helper: the executable threshold test `cvBelow` coincides with the
real-valued reading `sqrt variance / mean < c` of the source's IEEE
comparison. -/
theorem cvBelow_eq_true_iff (v a c : ℚ) (hc : 0 < c) :
    cvBelow v a c = true ↔
      (a ≠ 0 ∧ Real.sqrt (v : ℝ) / (a : ℝ) < (c : ℝ)) := by
  rw [cvBelow]
  split_ifs with h0 hneg
  · simp [h0]
  · constructor
    · intro _
      refine ⟨ne_of_lt hneg, ?_⟩
      have h1 : Real.sqrt (v : ℝ) / (a : ℝ) ≤ 0 :=
        div_nonpos_iff.mpr (Or.inl ⟨Real.sqrt_nonneg _, by exact_mod_cast hneg.le⟩)
      exact lt_of_le_of_lt h1 (by exact_mod_cast hc)
    · intro _
      rfl
  · have ha : 0 < a := by
      rcases lt_trichotomy a 0 with h | h | h
      · exact absurd h hneg
      · exact absurd h h0
      · exact h
    rw [decide_eq_true_eq]
    have hca : (0 : ℝ) < (c : ℝ) * (a : ℝ) := by
      have : (0 : ℚ) < c * a := mul_pos hc ha
      exact_mod_cast this
    constructor
    · intro hlt
      refine ⟨ne_of_gt ha, ?_⟩
      rw [div_lt_iff₀ (by exact_mod_cast ha)]
      have h2 : (v : ℝ) < ((c : ℝ) * (a : ℝ)) ^ 2 := by exact_mod_cast hlt
      exact (Real.sqrt_lt' hca).mpr h2
    · rintro ⟨-, hlt⟩
      rw [div_lt_iff₀ (by exact_mod_cast ha)] at hlt
      have h2 := (Real.sqrt_lt' hca).mp hlt
      have : (v : ℝ) < (((c * a) ^ 2 : ℚ) : ℝ) := by push_cast; exact h2
      exact_mod_cast this

/-- Helper: with at least 2 events, `detectFrequencyPattern` is the nested
threshold classification of `gapMean` guarded by the `cvBelow` test on
`gapVariance`. -/
theorem detectFrequencyPattern_eq (conversions : List ConversionEvent)
    (hlen : 2 ≤ conversions.length) :
    detectFrequencyPattern conversions =
      if cvBelow (gapVariance conversions) (gapMean conversions) (3/10) then
        if gapMean conversions ≤ 2 then .daily
        else if gapMean conversions ≤ 9 then .weekly
        else if gapMean conversions ≤ 16 then .biWeekly
        else if gapMean conversions ≤ 35 then .monthly
        else .irregular
      else .irregular := by
  rw [detectFrequencyPattern, if_neg (by omega),
    if_neg (by rw [dayGaps_length]; omega)]
  rfl

/-- The classification bands claimed for `detectFrequencyPattern`: under
the low-dispersion condition `cvRegular` (the `cv < 0.3` test), `avgDays`
at most 2 is daily, at most 9 weekly, at most 16 bi-weekly, at most 35
monthly; in every other case the result is irregular. -/
def frequencyClassificationSpec (conversions : List ConversionEvent) : Prop :=
  (detectFrequencyPattern conversions = .daily ↔
      cvRegular conversions ∧ gapMean conversions ≤ 2) ∧
    (detectFrequencyPattern conversions = .weekly ↔
      cvRegular conversions ∧ 2 < gapMean conversions ∧
        gapMean conversions ≤ 9) ∧
    (detectFrequencyPattern conversions = .biWeekly ↔
      cvRegular conversions ∧ 9 < gapMean conversions ∧
        gapMean conversions ≤ 16) ∧
    (detectFrequencyPattern conversions = .monthly ↔
      cvRegular conversions ∧ 16 < gapMean conversions ∧
        gapMean conversions ≤ 35) ∧
    (detectFrequencyPattern conversions = .irregular ↔
      (¬ cvRegular conversions ∨ 35 < gapMean conversions))

/-- C1: with at least 2 events, `detectFrequencyPattern` classifies by the
coefficient of variation `cv = stdDev / avgDays` (population standard
deviation over mean of the consecutive day-gaps, read with real square root
and division — see `cvRegular`): below 0.3, the bands `avgDays ≤ 2` daily,
`≤ 9` weekly, `≤ 16` bi-weekly, `≤ 35` monthly apply; in every other case
(the comparison failing, or a low `cv` with `avgDays > 35`) the result is
irregular. -/
theorem detectFrequencyPattern_classification
    (conversions : List ConversionEvent) (hlen : 2 ≤ conversions.length) :
    frequencyClassificationSpec conversions := by
  rw [frequencyClassificationSpec]
  have hbridge :
      cvBelow (gapVariance conversions) (gapMean conversions) (3/10) = true ↔
        cvRegular conversions := by
    rw [cvBelow_eq_true_iff _ _ _ (by norm_num), cvRegular]
    norm_num
  rw [detectFrequencyPattern_eq conversions hlen]
  by_cases hcv :
      cvBelow (gapVariance conversions) (gapMean conversions) (3/10) = true
  · have hreg : cvRegular conversions := hbridge.mp hcv
    rw [if_pos hcv]
    split_ifs with h1 h2 h3 h4 <;>
      refine ⟨⟨fun hx => ?_, fun hx => ?_⟩, ⟨fun hx => ?_, fun hx => ?_⟩,
        ⟨fun hx => ?_, fun hx => ?_⟩, ⟨fun hx => ?_, fun hx => ?_⟩,
        ⟨fun hx => ?_, fun hx => ?_⟩⟩ <;>
      first
        | rfl
        | exact ⟨hreg, by linarith⟩
        | exact ⟨hreg, by linarith, by linarith⟩
        | exact Or.inr (by linarith)
        | exact absurd hx (by decide)
        | (exfalso
           obtain ⟨hx1, hx2, hx3⟩ := hx
           linarith)
        | (exfalso
           obtain ⟨hx1, hx2⟩ := hx
           linarith)
        | (rcases hx with hx | hx
           · exact absurd hreg hx
           · exact absurd hx (not_lt.mpr (by linarith)))
  · have hnreg : ¬ cvRegular conversions := fun hr => hcv (hbridge.mpr hr)
    rw [if_neg hcv]
    refine ⟨⟨fun hx => ?_, fun hx => ?_⟩, ⟨fun hx => ?_, fun hx => ?_⟩,
      ⟨fun hx => ?_, fun hx => ?_⟩, ⟨fun hx => ?_, fun hx => ?_⟩,
      ⟨fun hx => ?_, fun hx => ?_⟩⟩ <;>
    first
      | rfl
      | exact Or.inl hnreg
      | exact absurd hx (by decide)
      | exact absurd hx.1 hnreg

/-- C1 (witness): the classification statement instantiated at three events
seven days apart. -/
theorem detectFrequencyPattern_classification_witness :
    2 ≤ [sampleEvent 0 5, sampleEvent (7 * 86400000) 5,
      sampleEvent (14 * 86400000) 5].length ∧
    frequencyClassificationSpec [sampleEvent 0 5, sampleEvent (7 * 86400000) 5,
      sampleEvent (14 * 86400000) 5] :=
  ⟨by decide,
   detectFrequencyPattern_classification
     [sampleEvent 0 5, sampleEvent (7 * 86400000) 5,
       sampleEvent (14 * 86400000) 5] (by decide)⟩

/-- Helper: the simulation's `totalSimulatedAmount` is the sum of its
simulated conversion amounts, in both branches. -/
theorem simulateDisciplineRule_total (sinq : ℚ → ℚ) (jit : ℤ → ℚ)
    (conversions : List ConversionEvent) (balance : ℚ) (currency : String) :
    (simulateDisciplineRule sinq jit conversions balance currency).totalSimulatedAmount =
      ((simulateDisciplineRule sinq jit conversions balance currency).simulatedConversions.map
        (fun s => s.amount)).sum := by
  rw [simulateDisciplineRule]
  split_ifs <;> simp

/-- The cost-basis property claimed for `calculateCostSavings`: with
`actualCostBasis = (sum of actual amounts) * (1 - mean actual rate)` and
`simulatedCostBasis = totalSimulatedAmount * (1 - mean simulated price)`,
the result reports `|simulatedCostBasis - actualCostBasis|` (hence a
nonnegative amount), tagged `saved` exactly when the difference is
nonnegative and `lost` exactly when it is negative. -/
def costSavingsSpec (sinq : ℚ → ℚ) (jit : ℤ → ℚ)
    (conversions : List ConversionEvent) (balance : ℚ) (currency : String) :
    Prop :=
  let r := calculateCostSavings sinq jit conversions balance currency
  let simulation := simulateDisciplineRule sinq jit conversions balance currency
  let actualCostBasis := (conversions.map (fun c => c.amount)).sum *
    (1 - (conversions.map (fun c =>
      estimateExchangeRate sinq (jit c.timestamp) c.timestamp currency)).sum /
        (conversions.length : ℚ))
  let simulatedCostBasis := simulation.totalSimulatedAmount *
    (1 - (simulation.simulatedConversions.map
        (fun s => s.priceAtConversion)).sum /
      (simulation.simulatedConversions.length : ℚ))
  r.costOrSavedAmount = |simulatedCostBasis - actualCostBasis| ∧
    0 ≤ r.costOrSavedAmount ∧
    (r.costType = .saved ↔ 0 ≤ simulatedCostBasis - actualCostBasis) ∧
    (r.costType = .lost ↔ simulatedCostBasis - actualCostBasis < 0)

/-- C2: with at least 2 actual events, `calculateCostSavings` computes the
peg-deviation cost bases of the actual and simulated series and returns
their absolute difference with the `saved`/`lost` tag of its sign
(`saved` when the difference is `≥ 0`). -/
theorem calculateCostSavings_cost_basis (sinq : ℚ → ℚ) (jit : ℤ → ℚ)
    (conversions : List ConversionEvent) (balance : ℚ) (currency : String)
    (hlen : 2 ≤ conversions.length) :
    costSavingsSpec sinq jit conversions balance currency := by
  rw [costSavingsSpec]
  have h2 : ¬ conversions.length < 2 := by omega
  have h0 : 0 < conversions.length := by omega
  simp only [calculateCostSavings, if_neg h2, if_pos h0]
  set simulation := simulateDisciplineRule sinq jit conversions balance currency
    with hsim
  by_cases hempty : simulation.simulatedConversions.length = 0
  · have hnil : simulation.simulatedConversions = [] :=
      List.length_eq_zero.mp hempty
    have htot : simulation.totalSimulatedAmount = 0 := by
      rw [hsim, simulateDisciplineRule_total, ← hsim, hnil]
      simp
    rw [if_neg (by omega)]
    rw [hnil, htot]
    refine ⟨by simp, by simp [abs_nonneg], ?_, ?_⟩ <;> simp
  · rw [if_pos (by omega)]
    refine ⟨rfl, abs_nonneg _, ?_, ?_⟩ <;>
      split_ifs with hc <;> simp_all

/-- C2 (witness): the cost-basis statement instantiated at two events one
day apart. -/
theorem calculateCostSavings_cost_basis_witness :
    2 ≤ [sampleEvent 0 5, sampleEvent 86400000 5].length ∧
    costSavingsSpec (fun _ => 0) (fun _ => 0)
      [sampleEvent 0 5, sampleEvent 86400000 5] 100 "USD" :=
  ⟨by decide,
   calculateCostSavings_cost_basis (fun _ => 0) (fun _ => 0)
     [sampleEvent 0 5, sampleEvent 86400000 5] 100 "USD" (by decide)⟩

/-- The timestamp order used to sort conversion events is total. -/
instance : IsTotal ConversionEvent (fun a b => a.timestamp ≤ b.timestamp) :=
  ⟨fun a b => le_total a.timestamp b.timestamp⟩

/-- The timestamp order used to sort conversion events is transitive. -/
instance : IsTrans ConversionEvent (fun a b => a.timestamp ≤ b.timestamp) :=
  ⟨fun _ _ _ hab hbc => le_trans hab hbc⟩

/-- Helper: the kept-transfer pass of `parseConversionEvents` is the map of
`toConversionEvent` over the transfers passing the truthiness filter. -/
theorem parseConversionEvents_filterMap_eq (now : ℤ)
    (transfers : List TransferData) (walletAddress : String) :
    transfers.filterMap (fun transfer =>
      if jsToLower transfer.from = jsToLower walletAddress ∧
          jsTruthy transfer.«to» then
        some (toConversionEvent now transfer)
      else none) =
    (transfers.filter (fun t =>
      decide (jsToLower t.from = jsToLower walletAddress) &&
        jsTruthy t.«to»)).map (toConversionEvent now) := by
  induction transfers with
  | nil => rfl
  | cons t ts ih =>
    by_cases h : jsToLower t.from = jsToLower walletAddress ∧
        jsTruthy t.«to»
    · simp only [List.filterMap_cons, List.filter_cons, if_pos h]
      rw [if_pos (by simp [h.1, h.2])]
      simp [ih]
    · simp only [List.filterMap_cons, List.filter_cons, if_neg h]
      rw [if_neg (by simpa using h)]
      exact ih

/-- Helper: the JavaScript truthiness of the `to` field says it is neither
null nor the empty string. -/
theorem jsTruthy_iff (o : Option String) :
    jsTruthy o = true ↔ o ≠ none ∧ o ≠ some "" := by
  cases o with
  | none => simp [jsTruthy]
  | some s => simp [jsTruthy]

/-- C6 (counterexample): a transfer whose sender matches the wallet
case-insensitively and whose recipient is non-null — but the empty string —
is excluded by `parseConversionEvents`, against the claimed inclusion
rule. -/
theorem parseConversionEvents_empty_to_excluded :
    jsToLower (TransferData.mk "1" "0xh" "0xAb" (some "") 5 "USDC" "erc20"
        ⟨none, none⟩ (some 0)).from = jsToLower "0xaB" ∧
    (TransferData.mk "1" "0xh" "0xAb" (some "") 5 "USDC" "erc20"
        ⟨none, none⟩ (some 0)).«to» ≠ none ∧
    parseConversionEvents 0
      [TransferData.mk "1" "0xh" "0xAb" (some "") 5 "USDC" "erc20"
        ⟨none, none⟩ (some 0)] "0xaB" = [] := by
  refine ⟨by decide, by decide, by decide⟩

/-- C6 (amended): `parseConversionEvents` keeps exactly the transfers whose
sender case-insensitively equals the wallet address and whose recipient is
non-null and non-empty, and returns them sorted ascending by timestamp. -/
theorem parseConversionEvents_filter_sorted (now : ℤ)
    (transfers : List TransferData) (walletAddress : String) :
    (parseConversionEvents now transfers walletAddress).Perm
      ((transfers.filter (fun t =>
        decide (jsToLower t.from = jsToLower walletAddress) &&
          (decide (t.«to» ≠ none) && decide (t.«to» ≠ some "")))).map
        (toConversionEvent now)) ∧
    (parseConversionEvents now transfers walletAddress).Pairwise
      (fun a b => a.timestamp ≤ b.timestamp) := by
  constructor
  · rw [parseConversionEvents]
    refine (List.perm_insertionSort _ _).trans ?_
    rw [parseConversionEvents_filterMap_eq]
    have hfilter : ∀ t ∈ transfers,
        (decide (jsToLower t.from = jsToLower walletAddress) &&
          jsTruthy t.«to») =
        (decide (jsToLower t.from = jsToLower walletAddress) &&
          (decide (t.«to» ≠ none) && decide (t.«to» ≠ some ""))) := by
      intro t _
      cases ht : t.«to» with
      | none => simp [jsTruthy, ht]
      | some s2 => simp [jsTruthy, ht]
    rw [List.filter_congr hfilter]
  · exact List.sorted_insertionSort _ _

/-- Helper: the civil conversion always produces a month in 1..12 and a day
in 1..31. -/
theorem civilFromDays_bounds (z0 : ℤ) :
    1 ≤ (civilFromDays z0).2.1 ∧ (civilFromDays z0).2.1 ≤ 12 ∧
    1 ≤ (civilFromDays z0).2.2 ∧ (civilFromDays z0).2.2 ≤ 31 := by
  simp only [civilFromDays]
  omega

/-- Helper: a day-of-month is between 1 and 31. -/
theorem dayOfMonth_bounds (ms : ℤ) :
    1 ≤ dayOfMonth ms ∧ dayOfMonth ms ≤ 31 := by
  rw [dayOfMonth]
  exact ⟨(civilFromDays_bounds _).2.2.1, (civilFromDays_bounds _).2.2.2⟩

/-- Helper: when consecutive events are spaced by a fixed number of
milliseconds, every consecutive day-gap is that step divided by a day. -/
theorem dayGaps_const_of_chain (l : List ConversionEvent) (step : ℤ)
    (h : List.Chain' (fun x y => y.timestamp = x.timestamp + step) l) :
    ∀ g ∈ dayGaps l, g = (step : ℚ) / 86400000 := by
  induction l with
  | nil => intro g hg; simp [dayGaps] at hg
  | cons x xs ih =>
    cases xs with
    | nil => intro g hg; simp [dayGaps] at hg
    | cons y rest =>
      rw [List.chain'_cons] at h
      intro g hg
      simp only [dayGaps, List.tail_cons, List.zip_cons_cons, List.map_cons,
        List.mem_cons] at hg
      rcases hg with hg | hg
      · rw [hg, h.1]
        push_cast
        ring
      · exact ih h.2 g (by simpa [dayGaps] using hg)

/-- Helper: the `mostCommonDay` fold returns the unique day carried by a
constant nonempty day list when that day is a calendar day (1..31). -/
theorem mostCommonDay_const (days : List ℤ) (d : ℤ) (hne : days ≠ [])
    (hall : ∀ x ∈ days, x = d) (hd1 : 1 ≤ d) (hd31 : d ≤ 31) :
    mostCommonDay days = d := by
  have hlen0 : 0 < days.length := List.length_pos.mpr hne
  have hcount : ∀ x : ℤ, days.count x =
      if x = d then days.length else 0 := by
    intro x
    split_ifs with hx
    · subst hx
      exact List.count_eq_length.mpr (fun b hb => (hall b hb).symm)
    · exact List.count_eq_zero.mpr (fun hmem => hx (hall x hmem))
  have hhead : days.headI = d := by
    cases days with
    | nil => exact absurd rfl hne
    | cons x xs => exact hall x (List.mem_cons_self x xs)
  have key : ∀ (L : List ℤ) (acc : ℤ × ℕ),
      (acc = (d, 0) ∨ acc = (d, days.length)) →
      (d ∈ L ∨ acc = (d, days.length)) →
      L.foldl (fun acc day =>
        let count := days.count day
        if acc.2 < count then (day, count) else acc) acc =
        (d, days.length) := by
    intro L
    induction L with
    | nil =>
      intro acc _ hd
      rcases hd with hd | hd
      · exact absurd hd (List.not_mem_nil d)
      · simpa using hd
    | cons x L ih =>
      intro acc hacc hd
      simp only [List.foldl_cons]
      by_cases hx : x = d
      · subst hx
        rcases hacc with rfl | rfl
        · rw [show (if ((x, 0) : ℤ × ℕ).2 < days.count x then
              (x, days.count x) else (x, 0)) = (x, days.length) by
              simp [hcount, hlen0]]
          exact ih _ (Or.inr rfl) (Or.inr rfl)
        · rw [show (if ((x, days.length) : ℤ × ℕ).2 < days.count x then
              (x, days.count x) else (x, days.length)) = (x, days.length) by
              simp [hcount]]
          exact ih _ (Or.inr rfl) (Or.inr rfl)
      · rw [show (if acc.2 < days.count x then (x, days.count x) else acc) =
            acc by simp [hcount, hx]]
        rcases hd with hd | hd
        · rcases List.mem_cons.mp hd with rfl | hd
          · exact absurd rfl hx
          · exact ih acc hacc (Or.inl hd)
        · exact ih acc hacc (Or.inr hd)
  have hdmem : d ∈ (List.range 31).map (fun i => (i : ℤ) + 1) := by
    interval_cases d <;> decide
  rw [mostCommonDay, hhead, key _ _ (Or.inl rfl) (Or.inl hdmem)]

/-- Helper: exactly 30-day spacing gives the full frequency score. -/
theorem calculateFrequencyScore_thirty_days
    (conversions : List ConversionEvent) (hlen : 2 ≤ conversions.length)
    (hchain : List.Chain'
      (fun x y => y.timestamp = x.timestamp + 30 * 86400000) conversions) :
    calculateFrequencyScore conversions = 100 := by
  have hg : ∀ g ∈ dayGaps conversions, g = 30 := by
    intro g hgm
    rw [dayGaps_const_of_chain conversions (30 * 86400000) hchain g hgm]
    norm_num
  have hlen1 : ((conversions.length : ℚ) - 1) ≠ 0 := by
    have h2 : (2 : ℚ) ≤ (conversions.length : ℚ) := by exact_mod_cast hlen
    intro h0
    linarith
  have hsum : (dayGaps conversions).sum =
      30 * ((conversions.length : ℚ) - 1) := by
    rw [List.sum_eq_card_nsmul _ 30 hg, dayGaps_length, nsmul_eq_mul]
    have : ((conversions.length - 1 : ℕ) : ℚ) = (conversions.length : ℚ) - 1 := by
      have h1 : 1 ≤ conversions.length := by omega
      push_cast [h1]
      ring
    rw [this]
    ring
  rw [calculateFrequencyScore, if_neg (by omega)]
  simp only [hsum, mul_div_assoc, div_self hlen1, mul_one]
  norm_num

/-- Helper: identical nonzero amounts give the full consistency score. -/
theorem calculateConsistencyScore_const (conversions : List ConversionEvent)
    (a : ℚ) (hlen : 2 ≤ conversions.length)
    (hall : ∀ e ∈ conversions, e.amount = a) (ha : a ≠ 0) :
    calculateConsistencyScore conversions = 100 := by
  have hmap : ∀ x ∈ conversions.map (fun c => c.amount), x = a := by
    intro x hx
    obtain ⟨e, he, rfl⟩ := List.mem_map.mp hx
    exact hall e he
  have hlen0 : ((conversions.map (fun c => c.amount)).length : ℚ) ≠ 0 := by
    rw [List.length_map]
    have : conversions.length ≠ 0 := by omega
    exact_mod_cast this
  have hsum : (conversions.map (fun c => c.amount)).sum =
      ((conversions.map (fun c => c.amount)).length : ℚ) * a := by
    rw [List.sum_eq_card_nsmul _ a hmap, nsmul_eq_mul]
  have hmean : (conversions.map (fun c => c.amount)).sum /
      ((conversions.map (fun c => c.amount)).length : ℚ) = a := by
    rw [hsum, mul_div_cancel_left₀ a hlen0]
  rw [calculateConsistencyScore, if_neg (by omega)]
  have hvar : ((conversions.map (fun c => c.amount)).map
      (fun x => (x - a) ^ 2)).sum = 0 := by
    apply List.sum_eq_zero
    intro x hx
    obtain ⟨y, hy, rfl⟩ := List.mem_map.mp hx
    rw [hmap y hy]
    ring
  have hcv : cvBelow 0 a (1/10) = true := by
    rw [cvBelow]
    rcases lt_trichotomy a 0 with hneg | h0 | hpos
    · rw [if_neg ha, if_pos hneg]
    · exact absurd h0 ha
    · rw [if_neg ha, if_neg (by linarith), decide_eq_true_eq]
      positivity
  simp only [hmean, if_neg ha, hvar, zero_div, hcv, if_true]

/-- Helper: a common day-of-month across all events gives the full timing
score. -/
theorem calculateTimingScore_const (conversions : List ConversionEvent)
    (d : ℤ) (hlen : 2 ≤ conversions.length)
    (hday : ∀ e ∈ conversions, dayOfMonth e.timestamp = d) :
    calculateTimingScore conversions = 100 := by
  have hne : conversions ≠ [] := by
    intro h
    rw [h] at hlen
    simp at hlen
  obtain ⟨e0, he0⟩ := List.exists_mem_of_ne_nil conversions hne
  have hd1 : 1 ≤ d := by
    rw [← hday e0 he0]
    exact (dayOfMonth_bounds _).1
  have hd31 : d ≤ 31 := by
    rw [← hday e0 he0]
    exact (dayOfMonth_bounds _).2
  have hmapne : conversions.map (fun c => dayOfMonth c.timestamp) ≠ [] := by
    simpa using hne
  have hmap : ∀ x ∈ conversions.map (fun c => dayOfMonth c.timestamp),
      x = d := by
    intro x hx
    obtain ⟨e, he, rfl⟩ := List.mem_map.mp hx
    exact hday e he
  have hmc : mostCommonDay (conversions.map (fun c => dayOfMonth c.timestamp)) = d :=
    mostCommonDay_const _ d hmapne hmap hd1 hd31
  rw [calculateTimingScore, if_neg (by omega)]
  have hfilter : (conversions.map (fun c => dayOfMonth c.timestamp)).filter
      (fun day => decide (min |day - d| (31 - |day - d|) ≤ 3)) =
      conversions.map (fun c => dayOfMonth c.timestamp) := by
    apply List.filter_eq_self.mpr
    intro x hx
    rw [hmap x hx]
    simp
  have hpct : ((conversions.length : ℚ)) / ((conversions.length : ℚ)) = 1 := by
    apply div_self
    have : conversions.length ≠ 0 := by omega
    exact_mod_cast this
  simp only [hmc, hfilter, List.length_map, hpct]
  norm_num

set_option maxRecDepth 10000 in
/-- C3 (counterexample): two events exactly 30 days apart, on the same
day-of-month, with identical amounts — all equal to zero — score
consistency 0 (the zero-mean guard) and overall 70, not 100 as claimed for
every identical-amount sequence. -/
theorem calculateDisciplineScore_zero_amounts_not_perfect :
    (sampleEvent (msAt 2024 5 15) 0).timestamp -
        (sampleEvent (msAt 2024 4 15) 0).timestamp = 30 * 86400000 ∧
    dayOfMonth (sampleEvent (msAt 2024 4 15) 0).timestamp = 15 ∧
    dayOfMonth (sampleEvent (msAt 2024 5 15) 0).timestamp = 15 ∧
    (sampleEvent (msAt 2024 4 15) 0).amount =
      (sampleEvent (msAt 2024 5 15) 0).amount ∧
    (calculateDisciplineScore
      [sampleEvent (msAt 2024 4 15) 0, sampleEvent (msAt 2024 5 15) 0]).components.consistencyScore = 0 ∧
    (calculateDisciplineScore
      [sampleEvent (msAt 2024 4 15) 0, sampleEvent (msAt 2024 5 15) 0]).score = 70 := by
  have hf : calculateFrequencyScore
      [sampleEvent (msAt 2024 4 15) 0, sampleEvent (msAt 2024 5 15) 0] = 100 := by
    norm_num [calculateFrequencyScore, dayGaps, sampleEvent, msAt, daysFromCivil]
  have hc : calculateConsistencyScore
      [sampleEvent (msAt 2024 4 15) 0, sampleEvent (msAt 2024 5 15) 0] = 0 := by
    norm_num [calculateConsistencyScore, sampleEvent]
  have ht : calculateTimingScore
      [sampleEvent (msAt 2024 4 15) 0, sampleEvent (msAt 2024 5 15) 0] = 100 := by
    rw [calculateTimingScore, if_neg (by decide)]
    have hmap : [sampleEvent (msAt 2024 4 15) 0,
        sampleEvent (msAt 2024 5 15) 0].map (fun c => dayOfMonth c.timestamp) =
        [15, 15] := by decide
    have hmc : mostCommonDay [15, 15] = 15 := by decide
    simp only [hmap, hmc]
    norm_num
  refine ⟨by decide, by decide, by decide, by decide, ?_, ?_⟩
  · rw [calculateDisciplineScore, if_neg (by decide)]
    simp only [hc]
  · rw [calculateDisciplineScore, if_neg (by decide)]
    simp only [hf, hc, ht, jsRound]
    norm_num

/-- C3 (amended): a sequence of at least 2 events spaced exactly 30 days
apart, with identical **nonzero** amounts and a common day-of-month, scores
frequency 100, consistency 100, timing 100 and overall 100. -/
theorem calculateDisciplineScore_perfect_sequence
    (conversions : List ConversionEvent) (a : ℚ) (d : ℤ)
    (hlen : 2 ≤ conversions.length)
    (hchain : List.Chain'
      (fun x y => y.timestamp = x.timestamp + 30 * 86400000) conversions)
    (hamount : ∀ e ∈ conversions, e.amount = a) (ha : a ≠ 0)
    (hday : ∀ e ∈ conversions, dayOfMonth e.timestamp = d) :
    (calculateDisciplineScore conversions).score = 100 ∧
    (calculateDisciplineScore conversions).components =
      ⟨100, 100, 100⟩ := by
  have hf := calculateFrequencyScore_thirty_days conversions hlen hchain
  have hc := calculateConsistencyScore_const conversions a hlen hamount ha
  have ht := calculateTimingScore_const conversions d hlen hday
  rw [calculateDisciplineScore, if_neg (by omega)]
  constructor
  · simp only [hf, hc, ht, jsRound]
    norm_num
  · simp only [hf, hc, ht]

set_option maxRecDepth 10000 in
/-- C3 (witness): the amended statement instantiated at two events with
amount 5 on the 15th of April and May 2024 (30 days apart). -/
theorem calculateDisciplineScore_perfect_sequence_witness :
    2 ≤ [sampleEvent (msAt 2024 4 15) 5, sampleEvent (msAt 2024 5 15) 5].length ∧
    (calculateDisciplineScore
      [sampleEvent (msAt 2024 4 15) 5, sampleEvent (msAt 2024 5 15) 5]).score = 100 ∧
    (calculateDisciplineScore
      [sampleEvent (msAt 2024 4 15) 5, sampleEvent (msAt 2024 5 15) 5]).components =
      ⟨100, 100, 100⟩ :=
  ⟨by decide,
   calculateDisciplineScore_perfect_sequence
     [sampleEvent (msAt 2024 4 15) 5, sampleEvent (msAt 2024 5 15) 5] 5 15
     (by decide)
     (List.chain'_cons.mpr ⟨by decide, List.chain'_singleton _⟩)
     (by decide) (by decide) (by decide)⟩

/-- Helper: stepping to the next calendar month advances an instant by the
length of the current month — between 28 and 31 days. -/
theorem fromCivil_nextMonth_bounds (c : CivilDT) (h1 : 1 ≤ c.m)
    (h2 : c.m ≤ 12) :
    fromCivil c + 28 * 86400000 ≤ fromCivil (nextMonth c) ∧
    fromCivil (nextMonth c) ≤ fromCivil c + 31 * 86400000 := by
  obtain ⟨y, m, d, tod⟩ := c
  simp only [nextMonth, fromCivil, daysFromCivil, msPerDay] at *
  interval_cases m <;> simp_all <;> omega

/-- Helper: the next-month step keeps the month in 1..12. -/
theorem nextMonth_m_bounds (c : CivilDT) (h1 : 1 ≤ c.m) (h2 : c.m ≤ 12) :
    1 ≤ (nextMonth c).m ∧ (nextMonth c).m ≤ 12 := by
  rw [nextMonth]
  split_ifs with h
  · simp
  · simp
    omega

/-- Helper: the next-month step keeps the day-of-month. -/
theorem nextMonth_d (c : CivilDT) : (nextMonth c).d = c.d := by
  rw [nextMonth]
  split_ifs <;> rfl

/-- Helper: every date the while loop emits carries the day-of-month of its
starting date. -/
theorem genDatesGo_d (fuel : ℕ) (c : CivilDT) (lastMs : ℤ) :
    ∀ x ∈ genDatesGo fuel c lastMs, x.d = c.d := by
  induction fuel generalizing c with
  | zero => intro x hx; simp [genDatesGo] at hx
  | succ fuel ih =>
    intro x hx
    rw [genDatesGo] at hx
    split_ifs at hx with hc
    · rcases List.mem_cons.mp hx with rfl | hx
      · rfl
      · rw [ih (nextMonth c) x hx, nextMonth_d]
    · simp at hx

/-- Helper: with enough fuel, the while loop of
`generateMonthlyConversionDates` emits exactly the consecutive
next-month iterates of its starting date that do not pass the last
conversion, and stops at the first one that does. -/
theorem genDatesGo_spec (fuel : ℕ) (c : CivilDT) (lastMs : ℤ)
    (hm1 : 1 ≤ c.m) (hm2 : c.m ≤ 12)
    (hfuel : lastMs < fromCivil c + 28 * 86400000 * fuel) :
    genDatesGo fuel c lastMs =
      (List.range (genDatesGo fuel c lastMs).length).map
        (fun k => nextMonth^[k] c) ∧
    (∀ k < (genDatesGo fuel c lastMs).length,
      fromCivil (nextMonth^[k] c) ≤ lastMs) ∧
    lastMs < fromCivil (nextMonth^[(genDatesGo fuel c lastMs).length] c) := by
  induction fuel generalizing c with
  | zero =>
    rw [genDatesGo]
    refine ⟨rfl, by simp, ?_⟩
    simpa using hfuel
  | succ fuel ih =>
    rw [genDatesGo]
    split_ifs with hc
    · have hstep := fromCivil_nextMonth_bounds c hm1 hm2
      have hmb := nextMonth_m_bounds c hm1 hm2
      have hfuel2 : lastMs < fromCivil (nextMonth c) +
          28 * 86400000 * fuel := by
        have : (28 : ℤ) * 86400000 * (fuel + 1 : ℕ) =
            28 * 86400000 + 28 * 86400000 * fuel := by
          push_cast
          ring
        rw [this] at hfuel
        omega
      obtain ⟨ih1, ih2, ih3⟩ := ih (nextMonth c) hmb.1 hmb.2 hfuel2
      have hlen : (c :: genDatesGo fuel (nextMonth c) lastMs).length =
          (genDatesGo fuel (nextMonth c) lastMs).length + 1 := by
        simp
      refine ⟨?_, ?_, ?_⟩
      · rw [hlen, List.range_succ_eq_map, List.map_cons]
        congr 1
        rw [List.map_map]
        calc genDatesGo fuel (nextMonth c) lastMs =
            (List.range (genDatesGo fuel (nextMonth c) lastMs).length).map
              (fun k => nextMonth^[k] (nextMonth c)) := ih1
          _ = (List.range (genDatesGo fuel (nextMonth c) lastMs).length).map
              ((fun k => nextMonth^[k] c) ∘ Nat.succ) := by
            apply List.map_congr_left
            intro k _
            simp [Function.iterate_succ_apply]
      · intro k hk
        rw [hlen] at hk
        cases k with
        | zero => simpa using hc
        | succ k =>
          rw [Function.iterate_succ_apply]
          exact ih2 k (by omega)
      · rw [hlen, Function.iterate_succ_apply]
        exact ih3
    · rw [show (([] : List CivilDT)).length = 0 by rfl]
      refine ⟨rfl, by simp, ?_⟩
      simp only [Function.iterate_zero_apply]
      omega

/-- Helper: the simulation's starting date has its month in 1..12. -/
theorem simulationStartDate_m_bounds (firstMs targetDayOfMonth : ℤ) :
    1 ≤ (simulationStartDate firstMs targetDayOfMonth).m ∧
    (simulationStartDate firstMs targetDayOfMonth).m ≤ 12 := by
  rw [simulationStartDate]
  have hb := civilFromDays_bounds (firstMs / msPerDay)
  split_ifs with h
  · exact nextMonth_m_bounds _ (by simpa [toCivil] using hb.1)
      (by simpa [toCivil] using hb.2.1)
  · exact ⟨by simpa [toCivil] using hb.1, by simpa [toCivil] using hb.2.1⟩

/-- Helper: the simulation's starting date is on the target day-of-month. -/
theorem simulationStartDate_d (firstMs targetDayOfMonth : ℤ) :
    (simulationStartDate firstMs targetDayOfMonth).d = targetDayOfMonth := by
  rw [simulationStartDate]
  split_ifs with h
  · rw [nextMonth_d]
  · rfl

/-- Helper: the fuel supplied to the while loop is always sufficient. -/
theorem generateMonthlyConversionDates_fuel (c1 : CivilDT) (lastMs : ℤ) :
    lastMs < fromCivil c1 + 28 * 86400000 *
      ((lastMs - fromCivil c1).toNat / (28 * 86400000) + 1 : ℕ) := by
  omega

/-- Helper: with at least 2 events, the simulation's conversion list is the
monthly date list decorated with the constant amount and the synthetic
price, and its percentage is the one computed from the sorted events. -/
theorem simulateDisciplineRule_fields (sinq : ℚ → ℚ) (jit : ℤ → ℚ)
    (conversions : List ConversionEvent) (balance : ℚ) (currency : String)
    (hlen : 2 ≤ conversions.length) :
    (simulateDisciplineRule sinq jit conversions balance currency).simulatedConversions =
      (generateMonthlyConversionDates
        (conversions.insertionSort (fun a b => a.timestamp ≤ b.timestamp)).headI.timestamp
        (conversions.insertionSort (fun a b => a.timestamp ≤ b.timestamp)).getLastI.timestamp
        (determineTargetDayOfMonth
          (conversions.insertionSort (fun a b => a.timestamp ≤ b.timestamp)))).map
        (fun date =>
          { timestamp := date
            amount := balance * calculateConversionPercentage
              (conversions.insertionSort (fun a b => a.timestamp ≤ b.timestamp)) balance
            priceAtConversion := getExchangeRateAtTimestamp sinq
              (jit (fromCivil date)) (fromCivil date) currency
            convertedTo := currency }) ∧
    (simulateDisciplineRule sinq jit conversions balance currency).conversionPercentage =
      calculateConversionPercentage
        (conversions.insertionSort (fun a b => a.timestamp ≤ b.timestamp)) balance := by
  rw [simulateDisciplineRule, if_neg (by omega)]
  exact ⟨rfl, rfl⟩

/-- The monthly-schedule property of `simulateDisciplineRule` with at least
2 events: writing `start` for `simulationStartDate` (the first event's
month with the day set to `targetDayOfMonth`, advanced a month when the
first event is already past that day), the simulated conversions are dated
at the consecutive next-month iterates of `start` that do not pass the last
event — one per calendar month — the month after the last emitted date
falls after the last event, each date is on `targetDayOfMonth`, and each
amount is `balance * conversionPercentage`, constant across the series. -/
def simulatedScheduleSpec (sinq : ℚ → ℚ) (jit : ℤ → ℚ)
    (conversions : List ConversionEvent) (balance : ℚ) (currency : String) :
    Prop :=
  let r := simulateDisciplineRule sinq jit conversions balance currency
  let sorted := conversions.insertionSort (fun a b => a.timestamp ≤ b.timestamp)
  let start := simulationStartDate sorted.headI.timestamp
    (determineTargetDayOfMonth sorted)
  let lastMs := sorted.getLastI.timestamp
  let N := r.simulatedConversions.length
  (r.simulatedConversions.map (fun s => s.timestamp) =
    (List.range N).map (fun k => nextMonth^[k] start)) ∧
  (∀ k < N, fromCivil (nextMonth^[k] start) ≤ lastMs) ∧
  lastMs < fromCivil (nextMonth^[N] start) ∧
  (∀ s ∈ r.simulatedConversions,
    s.timestamp.d = determineTargetDayOfMonth sorted ∧
    s.amount = balance * r.conversionPercentage)

/-- C5 (amended): with at least 2 actual events, `simulateDisciplineRule`
generates exactly one simulated conversion per calendar month, starting in
the first event's month (or the next month when the first event is already
past `targetDayOfMonth` in its own month) and continuing exactly through
the last month whose `targetDayOfMonth` date does not pass the last actual
event, each dated on `targetDayOfMonth`, each with amount
`currentBalance * conversionPercentage` constant across the series. -/
theorem simulateDisciplineRule_monthly_schedule (sinq : ℚ → ℚ)
    (jit : ℤ → ℚ) (conversions : List ConversionEvent) (balance : ℚ)
    (currency : String) (hlen : 2 ≤ conversions.length) :
    simulatedScheduleSpec sinq jit conversions balance currency := by
  obtain ⟨hsims, hpct⟩ :=
    simulateDisciplineRule_fields sinq jit conversions balance currency hlen
  rw [simulatedScheduleSpec]
  set sorted := conversions.insertionSort (fun a b => a.timestamp ≤ b.timestamp)
    with hsorted
  set target := determineTargetDayOfMonth sorted with htarget
  set firstMs := sorted.headI.timestamp with hfirst
  set lastMs := sorted.getLastI.timestamp with hlast
  set start := simulationStartDate firstMs target with hstart
  have hdates : generateMonthlyConversionDates firstMs lastMs target =
      genDatesGo ((lastMs - fromCivil start).toNat / (28 * 86400000) + 1)
        start lastMs := by
    rw [generateMonthlyConversionDates]
  have hmb := simulationStartDate_m_bounds firstMs target
  obtain ⟨hspec1, hspec2, hspec3⟩ :=
    genDatesGo_spec ((lastMs - fromCivil start).toNat / (28 * 86400000) + 1)
      start lastMs hmb.1 hmb.2 (generateMonthlyConversionDates_fuel start lastMs)
  rw [← hdates] at hspec1 hspec2 hspec3
  have hmapts : (simulateDisciplineRule sinq jit conversions balance
      currency).simulatedConversions.map (fun s => s.timestamp) =
      generateMonthlyConversionDates firstMs lastMs target := by
    rw [hsims, List.map_map]
    exact List.map_id _
  have hN : (simulateDisciplineRule sinq jit conversions balance
      currency).simulatedConversions.length =
      (generateMonthlyConversionDates firstMs lastMs target).length := by
    rw [hsims, List.length_map]
  refine ⟨?_, ?_, ?_, ?_⟩
  · rw [hmapts, hN]
    exact hspec1
  · intro k hk
    rw [hN] at hk
    exact hspec2 k hk
  · rw [hN]
    exact hspec3
  · intro s hs
    rw [hsims] at hs
    obtain ⟨date, hdate, rfl⟩ := List.mem_map.mp hs
    refine ⟨?_, ?_⟩
    · have hd := genDatesGo_d
        ((lastMs - fromCivil start).toNat / (28 * 86400000) + 1) start lastMs
        date (by rwa [← hdates])
      rw [hd, hstart, simulationStartDate_d]
    · rw [hpct]

set_option maxRecDepth 10000 in
/-- C5 (counterexample): for events on 2024-01-20, 2024-02-20 and
2024-03-05 (so `targetDayOfMonth = 20`), the simulation generates dates in
January and February only: the last actual event's month (March 2024) gets
no simulated conversion, because its target-day date (March 20) falls after
the last event — against the claimed "through the last actual event's
month". -/
theorem simulateDisciplineRule_last_month_skipped :
    ((simulateDisciplineRule (fun _ => 0) (fun _ => 0)
      [sampleEvent (msAt 2024 1 20) 100, sampleEvent (msAt 2024 2 20) 100,
        sampleEvent (msAt 2024 3 5) 100] 1000 "USD").simulatedConversions.map
      (fun s => (s.timestamp.y, s.timestamp.m))) = [(2024, 1), (2024, 2)] ∧
    (toCivil (msAt 2024 3 5)).y = 2024 ∧ (toCivil (msAt 2024 3 5)).m = 3 ∧
    ((2024, 3) : ℤ × ℤ) ∉
      ((simulateDisciplineRule (fun _ => 0) (fun _ => 0)
        [sampleEvent (msAt 2024 1 20) 100, sampleEvent (msAt 2024 2 20) 100,
          sampleEvent (msAt 2024 3 5) 100] 1000 "USD").simulatedConversions.map
        (fun s => (s.timestamp.y, s.timestamp.m))) := by
  refine ⟨by decide, by decide, by decide, by decide⟩

set_option maxRecDepth 10000 in
/-- C5 (witness): the amended schedule statement instantiated at the same
three events. -/
theorem simulateDisciplineRule_monthly_schedule_witness :
    2 ≤ [sampleEvent (msAt 2024 1 20) 100, sampleEvent (msAt 2024 2 20) 100,
      sampleEvent (msAt 2024 3 5) 100].length ∧
    simulatedScheduleSpec (fun _ => 0) (fun _ => 0)
      [sampleEvent (msAt 2024 1 20) 100, sampleEvent (msAt 2024 2 20) 100,
        sampleEvent (msAt 2024 3 5) 100] 1000 "USD" :=
  ⟨by decide,
   simulateDisciplineRule_monthly_schedule (fun _ => 0) (fun _ => 0)
     [sampleEvent (msAt 2024 1 20) 100, sampleEvent (msAt 2024 2 20) 100,
       sampleEvent (msAt 2024 3 5) 100] 1000 "USD" (by decide)⟩
